import Mathlib

/-!
Verification of the session lifecycle and balance-deduction logic of the
coworking-space admin panel (`src/components/SessionManagement.tsx`).

Times are modelled as natural numbers of milliseconds since the epoch
(`Date.getTime()`), calendar dates as natural day numbers, and row
identifiers as natural numbers (the database generates a fresh primary
key for every insert).  The backing store is the pair of the
`user_sessions` and `user_subscriptions` tables, each a list of rows.
-/

namespace SessionManagement

/-- Status of a `user_sessions` row.  The schema's CHECK constraint
admits exactly `active` and `completed`. -/
inductive SessionStatus where
  | active
  | completed
deriving DecidableEq

/-- Status of a `user_subscriptions` row.  The schema's CHECK constraint
admits `active`, `expired` and `cancelled`. -/
inductive SubscriptionStatus where
  | active
  | expired
  | cancelled
deriving DecidableEq

/-- A row of the `user_sessions` table, with the columns the controller
reads or writes. -/
structure UserSession where
  id : Nat
  user_id : Nat
  user_subscription_id : Option Nat
  start_time : Nat
  end_time : Option Nat
  duration_minutes : Option Nat
  hours_deducted : Option Nat
  status : SessionStatus
  started_by : Nat
  ended_by : Option Nat
deriving DecidableEq

/-- A row of the `user_subscriptions` table, with the columns the
controller reads or writes. -/
structure UserSubscription where
  id : Nat
  user_id : Nat
  hours_remaining : Int
  end_date : Nat
  status : SubscriptionStatus
deriving DecidableEq

/-- The backing store: the two tables the controller touches. -/
structure Store where
  sessions : List UserSession
  subscriptions : List UserSubscription
deriving DecidableEq

/-- Result of a supabase `.single()` call: exactly one row yields that
row; zero or several rows yield error `PGRST116`, which both controller
call sites treat the same as "no row". -/
def singleRow {α : Type} : List α → Option α
  | [x] => some x
  | _ => none

/-- Errors surfaced by `startSession` as toast messages
(SessionManagement.tsx, lines 109, 127, 132). -/
inductive StartError where
  | AlreadyActive
  | NoSubscription
  | InsufficientBalance
deriving DecidableEq

/-- Any store read/write failure inside `endSession` is surfaced as the
generic "Failed to end session" toast. -/
inductive EndError where
  | StoreError
deriving DecidableEq

/-- Ceiling division on naturals: `Math.ceil (a / b)` for a nonnegative
numerator. -/
def ceilDiv (a b : Nat) : Nat := (a + b - 1) / b

/-- Line 189: `Math.ceil((endTime.getTime() - startTime.getTime()) / (1000 * 60))`. -/
def durationMinutesOf (t0 t1 : Nat) : Nat := ceilDiv (t1 - t0) 60000

/-- Line 190: `Math.ceil(durationMinutes / 60)` — round up to the nearest hour. -/
def hoursDeductedOf (dm : Nat) : Nat := ceilDiv dm 60

/-- The rows the line-97 query returns: sessions of this user with
status `active`. -/
def activeSessionQuery (store : Store) (userId : Nat) : List UserSession :=
  store.sessions.filter fun s =>
    decide (s.user_id = userId) && decide (s.status = SessionStatus.active)

/-- The rows the line-114 query returns: subscriptions of this user with
status `active` and `end_date >= today`. -/
def subscriptionQuery (store : Store) (userId today : Nat) : List UserSubscription :=
  store.subscriptions.filter fun sb =>
    decide (sb.user_id = userId) && decide (sb.status = SubscriptionStatus.active)
      && decide (today ≤ sb.end_date)

/-- A primary key the database has not handed out yet: strictly larger
than every session id in the store (models `gen_random_uuid()`). -/
def freshId (store : Store) : Nat :=
  store.sessions.foldr (fun s m => max s.id m) 0 + 1

/-- The row inserted by `startSession` (lines 137–144): status `active`,
`start_time` filled by the column default `now()`, linked subscription,
`started_by` the acting staff. -/
def mkNewSession (store : Store) (userId staffId now : Nat)
    (sub : UserSubscription) : UserSession :=
  { id := freshId store
    user_id := userId
    user_subscription_id := some sub.id
    start_time := now
    end_time := none
    duration_minutes := none
    hours_deducted := none
    status := SessionStatus.active
    started_by := staffId
    ended_by := none }

/-- Embeds `startSession` (SessionManagement.tsx, lines 92–156):
check for an existing active session, check for an active date-valid
subscription, check its balance, then insert the new row. -/
def startSession (store : Store) (userId staffId today now : Nat) :
    Except StartError Store :=
  match singleRow (activeSessionQuery store userId) with
  | some _ => Except.error StartError.AlreadyActive
  | none =>
    match singleRow (subscriptionQuery store userId today) with
    | none => Except.error StartError.NoSubscription
    | some sub =>
      if sub.hours_remaining ≤ 0 then
        Except.error StartError.InsufficientBalance
      else
        Except.ok { store with
          sessions := mkNewSession store userId staffId now sub :: store.sessions }

/-- The line-163 load of the session row by primary key. -/
def findSessionRow (store : Store) (i : Nat) : Option UserSession :=
  singleRow (store.sessions.filter fun s => decide (s.id = i))

/-- The joined subscription row (`user_subscription:user_subscription_id`),
looked up by primary key. -/
def findSubscriptionRow (store : Store) (i : Nat) : Option UserSubscription :=
  singleRow (store.subscriptions.filter fun sb => decide (sb.id = i))

/-- The line-193 update: on the row whose id matches, set `end_time`,
`duration_minutes`, `hours_deducted`, status `completed` and `ended_by`. -/
def updateSessionRow (sessionId now dm hd staffId : Nat)
    (s : UserSession) : UserSession :=
  if s.id = sessionId then
    { s with
      end_time := some now
      duration_minutes := some dm
      hours_deducted := some hd
      status := SessionStatus.completed
      ended_by := some staffId }
  else s

/-- The line-210 update: on the subscription row whose id matches, set
`hours_remaining` to the new value. -/
def updateSubscriptionRow (subId : Nat) (newHours : Int)
    (sb : UserSubscription) : UserSubscription :=
  if sb.id = subId then { sb with hours_remaining := newHours } else sb

/-- The JSON body of the line-222 webhook POST (the customer contact
fields live in the `users` table, outside the modelled store). -/
structure WebhookPayload where
  action : String
  sessionId : Nat
  userId : Nat
  duration_minutes : Nat
  hours_deducted : Nat
  hours_remaining : Int
deriving DecidableEq

/-- The outbound webhook `fetch`: `some ()` when the call is delivered,
`none` when it fails. -/
def sendWebhook (_payload : WebhookPayload) (delivered : Bool) : Option Unit :=
  if delivered then some () else none

/-- Embeds `endSession` (SessionManagement.tsx, lines 158–260): load the
session, compute the duration and the hours to deduct, complete the
session row, clamp-update the linked subscription's balance, then fire
the best-effort webhook.  The first component is the persisted outcome
the staff sees; the second records whether a webhook failure was logged
to the console (the line-248 catch block), which is the only effect a
failed webhook has. -/
def endSession (store : Store) (sessionId now staffId : Nat)
    (webhookOk : Bool) : Except EndError Store × Bool :=
  match findSessionRow store sessionId with
  | none => (Except.error EndError.StoreError, false)
  | some sess =>
    let durationMinutes := durationMinutesOf sess.start_time now
    let hoursDeducted := hoursDeductedOf durationMinutes
    let sessions' := store.sessions.map
      (updateSessionRow sessionId now durationMinutes hoursDeducted staffId)
    match sess.user_subscription_id with
    | none =>
      let delivery := sendWebhook
        { action := "session_ended", sessionId := sessionId, userId := sess.user_id,
          duration_minutes := durationMinutes, hours_deducted := hoursDeducted,
          hours_remaining := 0 } webhookOk
      (Except.ok { store with sessions := sessions' }, delivery.isNone)
    | some subId =>
      match findSubscriptionRow store subId with
      | none => (Except.error EndError.StoreError, false)
      | some sub =>
        let newHoursRemaining := max 0 (sub.hours_remaining - (hoursDeducted : Int))
        let subscriptions' := store.subscriptions.map
          (updateSubscriptionRow subId newHoursRemaining)
        let delivery := sendWebhook
          { action := "session_ended", sessionId := sessionId, userId := sess.user_id,
            duration_minutes := durationMinutes, hours_deducted := hoursDeducted,
            hours_remaining := newHoursRemaining } webhookOk
        (Except.ok { sessions := sessions', subscriptions := subscriptions' },
          delivery.isNone)

deriving instance DecidableEq for Except

/-- One staff action against the store: a start click or an end click. -/
inductive Op where
  | startOp (userId staffId today now : Nat)
  | endOp (sessionId now staffId : Nat) (webhookOk : Bool)

/-- Apply one action; a failed action leaves the store as it was. -/
def applyOp (op : Op) (store : Store) : Store :=
  match op with
  | Op.startOp u staff today now =>
      ((startSession store u staff today now).toOption).getD store
  | Op.endOp sid now staff w =>
      ((endSession store sid now staff w).1.toOption).getD store

/-- Apply a sequence of staff actions in order. -/
def applyOps (ops : List Op) (store : Store) : Store :=
  ops.foldl (fun st op => applyOp op st) store

/-- The status column of the session row with the given id, when the
lookup by primary key finds it. -/
def statusOf (store : Store) (i : Nat) : Option SessionStatus :=
  (findSessionRow store i).map fun s => s.status

/-- The spec's intended invariant (§3): at most one `active` session per
user. -/
abbrev AtMostOneActivePerUser (store : Store) : Prop :=
  ∀ s₁ ∈ store.sessions, ∀ s₂ ∈ store.sessions,
    s₁.user_id = s₂.user_id → s₁.status = SessionStatus.active →
    s₂.status = SessionStatus.active → s₁ = s₂

/-- Primary keys of the session table are unique. -/
abbrev SessionIdsUnique (store : Store) : Prop :=
  (store.sessions.map fun s => s.id).Nodup

/-- How the status column seen at one id may evolve across a single
staff action: unchanged, freshly created as `active`, or moved from
`active` to `completed`. -/
abbrev StatusStep (a b : Option SessionStatus) : Prop :=
  b = a ∨ (a = none ∧ b = some SessionStatus.active) ∨
    (a = some SessionStatus.active ∧ b = some SessionStatus.completed)

/-- How the status column seen at one id may evolve across any sequence
of staff actions: as in `StatusStep`, except that a row created along
the way may also have been completed already. -/
abbrev StatusReach (a b : Option SessionStatus) : Prop :=
  b = a ∨
    (a = none ∧ (b = some SessionStatus.active ∨ b = some SessionStatus.completed)) ∨
    (a = some SessionStatus.active ∧ b = some SessionStatus.completed)

/-- A concrete active session of user 1, linked to subscription 1,
started at epoch 0 by staff member 9. -/
def demoSession : UserSession :=
  { id := 1
    user_id := 1
    user_subscription_id := some 1
    start_time := 0
    end_time := none
    duration_minutes := none
    hours_deducted := none
    status := SessionStatus.active
    started_by := 9
    ended_by := none }

/-- A subscription of user 1 with 5 hours remaining, valid through day 100. -/
def demoSub5 : UserSubscription :=
  { id := 1, user_id := 1, hours_remaining := 5, end_date := 100,
    status := SubscriptionStatus.active }

/-- A subscription of user 1 with 1 hour remaining, valid through day 100. -/
def demoSub1 : UserSubscription :=
  { demoSub5 with hours_remaining := 1 }

/-- A subscription of user 1 with 0 hours remaining, valid through day 100. -/
def demoSub0 : UserSubscription :=
  { demoSub5 with hours_remaining := 0 }

/-- Store for the 61-minute example: one active session, 5 hours left. -/
def demoStore61 : Store :=
  { sessions := [demoSession], subscriptions := [demoSub5] }

/-- Store for the 125-minute example: one active session, 1 hour left. -/
def demoStore125 : Store :=
  { sessions := [demoSession], subscriptions := [demoSub1] }

/-- Store with no sessions and a drained subscription of user 1. -/
def demoStoreDrained : Store :=
  { sessions := [], subscriptions := [demoSub0] }

/-- The empty store. -/
def demoStoreEmpty : Store :=
  { sessions := [], subscriptions := [] }

/-- Store with no sessions and a well-funded subscription of user 1. -/
def demoStoreReady : Store :=
  { sessions := [], subscriptions := [demoSub5] }

/-- The state `demoStore125` reaches after the 125-minute end action. -/
def demoStore125Ended : Store :=
  { sessions := [{ demoSession with
      end_time := some 7500000
      duration_minutes := some 125
      hours_deducted := some 3
      status := SessionStatus.completed
      ended_by := some 9 }]
    subscriptions := [demoSub0] }

/-- The state `demoStore61` reaches after the 61-minute end action. -/
def demoStore61Ended : Store :=
  { sessions := [{ demoSession with
      end_time := some 3660000
      duration_minutes := some 61
      hours_deducted := some 2
      status := SessionStatus.completed
      ended_by := some 9 }]
    subscriptions := [{ demoSub5 with hours_remaining := 3 }] }

/-- Galois characterisation of ceiling division. -/
lemma ceilDiv_le_iff (n m k : Nat) (hm : 0 < m) : ceilDiv n m ≤ k ↔ n ≤ k * m := by
  rw [ceilDiv, ← Nat.lt_succ_iff, Nat.div_lt_iff_lt_mul hm, Nat.succ_mul]
  omega

/-- Two nested ceiling divisions collapse to one. -/
lemma ceilDiv_ceilDiv (n a b : Nat) (ha : 0 < a) (hb : 0 < b) :
    ceilDiv (ceilDiv n a) b = ceilDiv n (a * b) := by
  have key : ∀ k, ceilDiv (ceilDiv n a) b ≤ k ↔ ceilDiv n (a * b) ≤ k := by
    intro k
    rw [ceilDiv_le_iff _ _ _ hb, ceilDiv_le_iff _ _ _ ha,
      ceilDiv_le_iff _ _ _ (Nat.mul_pos ha hb)]
    rw [Nat.mul_assoc, Nat.mul_comm b a]
  exact le_antisymm ((key _).mpr le_rfl) ((key _).mp le_rfl)

/-- Ceiling division is invariant under scaling numerator and denominator. -/
lemma ceilDiv_mul_mul (n m k : Nat) (hm : 0 < m) (hk : 0 < k) :
    ceilDiv (k * n) (k * m) = ceilDiv n m := by
  have key : ∀ j, ceilDiv (k * n) (k * m) ≤ j ↔ ceilDiv n m ≤ j := by
    intro j
    rw [ceilDiv_le_iff _ _ _ (Nat.mul_pos hk hm), ceilDiv_le_iff _ _ _ hm]
    constructor
    · intro h
      have h' : k * n ≤ k * (j * m) := by
        calc k * n ≤ j * (k * m) := h
        _ = k * (j * m) := by ring
      exact Nat.le_of_mul_le_mul_left h' hk
    · intro h
      calc k * n ≤ k * (j * m) := Nat.mul_le_mul_left k h
      _ = j * (k * m) := by ring
  exact le_antisymm ((key _).mpr le_rfl) ((key _).mp le_rfl)

/-- Ceiling division of a positive numerator is at least one. -/
lemma one_le_ceilDiv (n m : Nat) (hn : 0 < n) (hm : 0 < m) : 1 ≤ ceilDiv n m := by
  by_contra h
  have h0 : ceilDiv n m ≤ 0 := by omega
  have := (ceilDiv_le_iff n m 0 hm).mp h0
  omega

/-- `singleRow` returns a row exactly when the query returned exactly that row. -/
lemma singleRow_eq_some {α : Type} {l : List α} {a : α} :
    singleRow l = some a ↔ l = [a] := by
  cases l with
  | nil => simp [singleRow]
  | cons x xs => cases xs <;> simp [singleRow]

/-- `singleRow` commutes with mapping over the rows. -/
lemma singleRow_map {α β : Type} (f : α → β) (l : List α) :
    singleRow (l.map f) = (singleRow l).map f := by
  cases l with
  | nil => rfl
  | cons x xs => cases xs <;> rfl

/-- Filtering after a map that does not disturb the filter predicate. -/
lemma filter_map_comm {α : Type} (l : List α) (f : α → α) (p : α → Bool)
    (hf : ∀ s, p (f s) = p s) :
    (l.map f).filter p = (l.filter p).map f := by
  induction l with
  | nil => rfl
  | cons x xs ih =>
    simp only [List.map_cons, List.filter_cons, hf]
    cases h : p x <;> simp [ih]

/-- A duplicate-free list all of whose members equal `a`, and which
contains `a`, is the singleton `[a]`. -/
lemma nodup_eq_singleton {α : Type} (l : List α) (a : α) (hd : l.Nodup)
    (hmem : a ∈ l) (hall : ∀ x ∈ l, x = a) : l = [a] := by
  cases l with
  | nil => cases hmem
  | cons x xs =>
    have hx : x = a := hall x (List.mem_cons_self x xs)
    subst hx
    cases xs with
    | nil => rfl
    | cons y ys =>
      have hy : y = x := hall y (by simp)
      have : x ∉ y :: ys := (List.nodup_cons.mp hd).1
      exact absurd (by rw [hy]; simp) this

/-- A member of the result of a singleton filter satisfies the predicate
and came from the list. -/
lemma of_filter_eq_singleton {α : Type} {l : List α} {p : α → Bool} {a : α}
    (h : l.filter p = [a]) : a ∈ l ∧ p a = true := by
  have : a ∈ l.filter p := by rw [h]; simp
  exact ⟨(List.mem_filter.mp this).1, (List.mem_filter.mp this).2⟩

/-- The session-row update never changes the primary key. -/
lemma updateSessionRow_id (sessionId now dm hd staffId : Nat) (s : UserSession) :
    (updateSessionRow sessionId now dm hd staffId s).id = s.id := by
  unfold updateSessionRow
  split <;> rfl

/-- The subscription-row update never changes the primary key. -/
lemma updateSubscriptionRow_id (subId : Nat) (newHours : Int) (sb : UserSubscription) :
    (updateSubscriptionRow subId newHours sb).id = sb.id := by
  unfold updateSubscriptionRow
  split <;> rfl

/-- A successful session lookup returns a row with the requested id,
drawn from the store. -/
lemma findSessionRow_spec {store : Store} {i : Nat} {sess : UserSession}
    (h : findSessionRow store i = some sess) :
    sess ∈ store.sessions ∧ sess.id = i := by
  have hf := singleRow_eq_some.mp h
  have := of_filter_eq_singleton hf
  exact ⟨this.1, by simpa using this.2⟩

/-- A successful subscription lookup returns a row with the requested id,
drawn from the store. -/
lemma findSubscriptionRow_spec {store : Store} {i : Nat} {sub : UserSubscription}
    (h : findSubscriptionRow store i = some sub) :
    sub ∈ store.subscriptions ∧ sub.id = i := by
  have hf := singleRow_eq_some.mp h
  have := of_filter_eq_singleton hf
  exact ⟨this.1, by simpa using this.2⟩

/-- A successful end action found its session row. -/
lemma endSession_ok_find {store : Store} {sessionId now staffId : Nat} {w : Bool}
    {store' : Store}
    (h : (endSession store sessionId now staffId w).1 = Except.ok store') :
    ∃ sess, findSessionRow store sessionId = some sess := by
  unfold endSession at h
  cases hf : findSessionRow store sessionId with
  | none => rw [hf] at h; simp at h
  | some sess => exact ⟨sess, rfl⟩

/-- What a successful end action persists: the session row completed
with the computed duration and deduction, and — when a subscription is
linked — its balance clamp-updated. -/
lemma endSession_ok_state {store : Store} {sessionId now staffId : Nat} {w : Bool}
    {sess : UserSession} {store' : Store}
    (hfind : findSessionRow store sessionId = some sess)
    (hok : (endSession store sessionId now staffId w).1 = Except.ok store') :
    store'.sessions = store.sessions.map
      (updateSessionRow sessionId now (durationMinutesOf sess.start_time now)
        (hoursDeductedOf (durationMinutesOf sess.start_time now)) staffId) ∧
    ((sess.user_subscription_id = none ∧ store'.subscriptions = store.subscriptions) ∨
      (∃ subId sub, sess.user_subscription_id = some subId ∧
        findSubscriptionRow store subId = some sub ∧
        store'.subscriptions = store.subscriptions.map
          (updateSubscriptionRow subId
            (max 0 (sub.hours_remaining -
              (hoursDeductedOf (durationMinutesOf sess.start_time now) : Int)))))) := by
  unfold endSession at hok
  rw [hfind] at hok
  simp only at hok
  cases hlink : sess.user_subscription_id with
  | none =>
    rw [hlink] at hok
    simp only [Except.ok.injEq] at hok
    subst hok
    exact ⟨rfl, Or.inl ⟨rfl, rfl⟩⟩
  | some subId =>
    rw [hlink] at hok
    dsimp only at hok
    cases hrow : findSubscriptionRow store subId with
    | none => rw [hrow] at hok; simp at hok
    | some sub =>
      rw [hrow] at hok
      simp only [Except.ok.injEq] at hok
      subst hok
      exact ⟨rfl, Or.inr ⟨subId, sub, rfl, hrow, rfl⟩⟩

/-- After the end action's session-table write, the lookup returns the
updated row. -/
lemma findSessionRow_after_update {store store' : Store} {sessionId : Nat}
    {sess : UserSession} (now dm hd staffId : Nat)
    (hfind : findSessionRow store sessionId = some sess)
    (hsess : store'.sessions = store.sessions.map
      (updateSessionRow sessionId now dm hd staffId)) :
    findSessionRow store' sessionId =
      some (updateSessionRow sessionId now dm hd staffId sess) := by
  unfold findSessionRow at *
  rw [hsess, filter_map_comm _ _ _ (fun s => by rw [updateSessionRow_id]),
    singleRow_map]
  rw [hfind]
  rfl

/-- After the end action's subscription-table write, the lookup returns
the updated row. -/
lemma findSubscriptionRow_after_update {store store' : Store} {subId : Nat}
    {sub : UserSubscription} (newHours : Int)
    (hrow : findSubscriptionRow store subId = some sub)
    (hsubs : store'.subscriptions = store.subscriptions.map
      (updateSubscriptionRow subId newHours)) :
    findSubscriptionRow store' subId =
      some (updateSubscriptionRow subId newHours sub) := by
  unfold findSubscriptionRow at *
  rw [hsubs, filter_map_comm _ _ _ (fun sb => by rw [updateSubscriptionRow_id]),
    singleRow_map]
  rw [hrow]
  rfl

/-- The balance persisted by a successful end action on a session with a
linked subscription. -/
lemma endSession_sub_updated {store : Store} {sessionId now staffId : Nat} {w : Bool}
    {sess : UserSession} {subId : Nat} {sub : UserSubscription} {store' : Store}
    (hfind : findSessionRow store sessionId = some sess)
    (hlink : sess.user_subscription_id = some subId)
    (hrow : findSubscriptionRow store subId = some sub)
    (hok : (endSession store sessionId now staffId w).1 = Except.ok store') :
    findSubscriptionRow store' subId = some
      { sub with hours_remaining := max 0 (sub.hours_remaining -
          (hoursDeductedOf (durationMinutesOf sess.start_time now) : Int)) } := by
  obtain ⟨-, hsubs⟩ := endSession_ok_state hfind hok
  rcases hsubs with ⟨hnone, -⟩ | ⟨subId', sub', hlink', hrow', hsubs'⟩
  · rw [hlink] at hnone; cases hnone
  · rw [hlink] at hlink'
    injection hlink' with h
    subst h
    rw [hrow] at hrow'
    injection hrow' with h
    subst h
    have := findSubscriptionRow_after_update _ hrow hsubs'
    rw [this]
    have hid : sub.id = subId := (findSubscriptionRow_spec hrow).2
    unfold updateSubscriptionRow
    rw [if_pos hid]

/-- C1: for every session ended by the end operation, with start time
`T0` and end time `T1 ≥ T0`, the persisted `duration_minutes` equals
`ceil((T1 - T0) / 60s)` (times in milliseconds, so one minute is 60000)
and the persisted `hours_deducted` equals `ceil(duration_minutes / 60)`. -/
theorem endSession_persists_ceil_billing
    (store : Store) (sessionId now staffId : Nat) (w : Bool)
    (sess : UserSession) (store' : Store)
    (hfind : findSessionRow store sessionId = some sess)
    (_hle : sess.start_time ≤ now)
    (hok : (endSession store sessionId now staffId w).1 = Except.ok store') :
    ∃ s', findSessionRow store' sessionId = some s' ∧
      s'.duration_minutes = some (ceilDiv (now - sess.start_time) 60000) ∧
      s'.hours_deducted =
        some (ceilDiv (ceilDiv (now - sess.start_time) 60000) 60) := by
  obtain ⟨hsess, -⟩ := endSession_ok_state hfind hok
  have hid : sess.id = sessionId := (findSessionRow_spec hfind).2
  refine ⟨_, findSessionRow_after_update _ _ _ _ hfind hsess, ?_, ?_⟩ <;>
    simp [updateSessionRow, hid, durationMinutesOf, hoursDeductedOf]

/-- Closed instance of `endSession_persists_ceil_billing`: the 61-minute
session on `demoStore61`. -/
theorem endSession_persists_ceil_billing_witness :
    findSessionRow demoStore61 1 = some demoSession ∧
    demoSession.start_time ≤ 3660000 ∧
    (endSession demoStore61 1 3660000 9 true).1 = Except.ok demoStore61Ended ∧
    (∃ s', findSessionRow demoStore61Ended 1 = some s' ∧
      s'.duration_minutes = some (ceilDiv (3660000 - demoSession.start_time) 60000) ∧
      s'.hours_deducted =
        some (ceilDiv (ceilDiv (3660000 - demoSession.start_time) 60000) 60)) :=
  ⟨by decide, by decide, by decide,
    endSession_persists_ceil_billing demoStore61 1 3660000 9 true demoSession
      demoStore61Ended (by decide) (by decide) (by decide)⟩

/-- C2: ending a session with a linked subscription of prior balance `B`
persists `hours_remaining = max 0 (B - hoursDeducted)`, which is never
negative. -/
theorem endSession_clamps_balance
    (store : Store) (sessionId now staffId : Nat) (w : Bool)
    (sess : UserSession) (subId : Nat) (sub : UserSubscription) (store' : Store)
    (hfind : findSessionRow store sessionId = some sess)
    (hlink : sess.user_subscription_id = some subId)
    (hrow : findSubscriptionRow store subId = some sub)
    (hok : (endSession store sessionId now staffId w).1 = Except.ok store') :
    ∃ sub', findSubscriptionRow store' subId = some sub' ∧
      sub'.hours_remaining = max 0 (sub.hours_remaining -
        (hoursDeductedOf (durationMinutesOf sess.start_time now) : Int)) ∧
      0 ≤ sub'.hours_remaining := by
  refine ⟨_, endSession_sub_updated hfind hlink hrow hok, rfl, ?_⟩
  exact le_max_left 0 _

/-- Closed instance of `endSession_clamps_balance`: the 125-minute
session against a 1-hour balance clamps to 0. -/
theorem endSession_clamps_balance_witness :
    findSessionRow demoStore125 1 = some demoSession ∧
    demoSession.user_subscription_id = some 1 ∧
    findSubscriptionRow demoStore125 1 = some demoSub1 ∧
    (endSession demoStore125 1 7500000 9 true).1 = Except.ok demoStore125Ended ∧
    (∃ sub', findSubscriptionRow demoStore125Ended 1 = some sub' ∧
      sub'.hours_remaining = max 0 (demoSub1.hours_remaining -
        (hoursDeductedOf (durationMinutesOf demoSession.start_time 7500000) : Int)) ∧
      0 ≤ sub'.hours_remaining) :=
  ⟨by decide, by decide, by decide, by decide,
    endSession_clamps_balance demoStore125 1 7500000 9 true demoSession 1 demoSub1
      demoStore125Ended (by decide) (by decide) (by decide) (by decide)⟩

/-- C5: the two worked billing examples.  A 61-minute session against a
5-hour balance persists `duration_minutes = 61`, `hours_deducted = 2`
and leaves 3 hours; a 125-minute session against a 1-hour balance
persists `hours_deducted = 3` and leaves `max(0, 1 - 3) = 0` hours. -/
theorem billing_examples :
    ((endSession demoStore61 1 3660000 9 true).1.toOption.bind fun st =>
        findSessionRow st 1).map (fun s => (s.duration_minutes, s.hours_deducted))
      = some (some 61, some 2) ∧
    ((endSession demoStore61 1 3660000 9 true).1.toOption.bind fun st =>
        findSubscriptionRow st 1).map (fun sb => sb.hours_remaining) = some 3 ∧
    ((endSession demoStore125 1 7500000 9 true).1.toOption.bind fun st =>
        findSessionRow st 1).map (fun s => s.hours_deducted) = some (some 3) ∧
    ((endSession demoStore125 1 7500000 9 true).1.toOption.bind fun st =>
        findSubscriptionRow st 1).map (fun sb => sb.hours_remaining) = some 0 := by
  decide

/-- C6: the outcome of the best-effort webhook call never changes what
the end operation persists or reports to the acting staff: the persisted
result is identical whether the webhook succeeds or fails. -/
theorem webhook_outcome_irrelevant (store : Store) (sessionId now staffId : Nat)
    (w₁ w₂ : Bool) :
    (endSession store sessionId now staffId w₁).1 =
      (endSession store sessionId now staffId w₂).1 := by
  unfold endSession
  cases findSessionRow store sessionId with
  | none => rfl
  | some sess =>
    dsimp only
    cases sess.user_subscription_id with
    | none => rfl
    | some subId =>
      dsimp only
      cases findSubscriptionRow store subId <;> rfl

/-- C9: the two-step rounding of line 189 and line 190 composes to a
single ceiling.  For a session of `s` whole seconds the deducted hours
are `ceil(ceil(s/60)/60) = ceil(s/3600)`, and any session of positive
length is billed at least one full hour. -/
theorem two_step_rounding_composes (t0 s : Nat) :
    hoursDeductedOf (durationMinutesOf t0 (t0 + 1000 * s)) =
      ceilDiv (ceilDiv s 60) 60 ∧
    hoursDeductedOf (durationMinutesOf t0 (t0 + 1000 * s)) = ceilDiv s 3600 ∧
    (0 < s → 1 ≤ hoursDeductedOf (durationMinutesOf t0 (t0 + 1000 * s))) := by
  have hdm : durationMinutesOf t0 (t0 + 1000 * s) = ceilDiv s 60 := by
    unfold durationMinutesOf
    rw [Nat.add_sub_cancel_left]
    have h60 : (60000 : Nat) = 1000 * 60 := by norm_num
    rw [h60, ceilDiv_mul_mul s 60 1000 (by norm_num) (by norm_num)]
  have h1 : hoursDeductedOf (durationMinutesOf t0 (t0 + 1000 * s)) =
      ceilDiv (ceilDiv s 60) 60 := by
    rw [hoursDeductedOf, hdm]
  have h2 : hoursDeductedOf (durationMinutesOf t0 (t0 + 1000 * s)) =
      ceilDiv s 3600 := by
    rw [h1, ceilDiv_ceilDiv s 60 60 (by norm_num) (by norm_num)]
  refine ⟨h1, h2, fun hs => ?_⟩
  rw [h2]
  exact one_le_ceilDiv s 3600 hs (by norm_num)

/-- Closed instance of `two_step_rounding_composes`: a 61-second session
is billed one full hour. -/
theorem two_step_rounding_composes_witness :
    0 < 61 ∧ 1 ≤ hoursDeductedOf (durationMinutesOf 0 (0 + 1000 * 61)) :=
  ⟨by decide, (two_step_rounding_composes 0 61).2.2 (by decide)⟩

/-- C10: the end operation never increases a subscription's balance:
from any nonnegative prior balance (the only balances the clamped writes
ever produce), the persisted balance is at most the prior one. -/
theorem endSession_never_increases_balance
    (store : Store) (sessionId now staffId : Nat) (w : Bool)
    (sess : UserSession) (subId : Nat) (sub : UserSubscription) (store' : Store)
    (hfind : findSessionRow store sessionId = some sess)
    (hlink : sess.user_subscription_id = some subId)
    (hrow : findSubscriptionRow store subId = some sub)
    (hnonneg : 0 ≤ sub.hours_remaining)
    (hok : (endSession store sessionId now staffId w).1 = Except.ok store') :
    ∃ sub', findSubscriptionRow store' subId = some sub' ∧
      sub'.hours_remaining ≤ sub.hours_remaining := by
  refine ⟨_, endSession_sub_updated hfind hlink hrow hok, ?_⟩
  have h1 : sub.hours_remaining -
      (hoursDeductedOf (durationMinutesOf sess.start_time now) : Int) ≤
      sub.hours_remaining := by omega
  exact max_le hnonneg h1

/-- Closed instance of `endSession_never_increases_balance`: the 61-minute
end action takes the balance from 5 down to 3. -/
theorem endSession_never_increases_balance_witness :
    findSessionRow demoStore61 1 = some demoSession ∧
    demoSession.user_subscription_id = some 1 ∧
    findSubscriptionRow demoStore61 1 = some demoSub5 ∧
    0 ≤ demoSub5.hours_remaining ∧
    (endSession demoStore61 1 3660000 9 true).1 = Except.ok demoStore61Ended ∧
    (∃ sub', findSubscriptionRow demoStore61Ended 1 = some sub' ∧
      sub'.hours_remaining ≤ demoSub5.hours_remaining) :=
  ⟨by decide, by decide, by decide, by decide, by decide,
    endSession_never_increases_balance demoStore61 1 3660000 9 true demoSession 1
      demoSub5 demoStore61Ended (by decide) (by decide) (by decide) (by decide)
      (by decide)⟩

/-- Under unique primary keys and the intended one-active-session-per-user
invariant, the line-97 query for a user with an active session returns
exactly that session. -/
lemma activeSessionQuery_eq_singleton {store : Store} {userId : Nat}
    {sess : UserSession} (hmem : sess ∈ store.sessions)
    (huser : sess.user_id = userId) (hact : sess.status = SessionStatus.active)
    (hids : SessionIdsUnique store) (hone : AtMostOneActivePerUser store) :
    activeSessionQuery store userId = [sess] := by
  apply nodup_eq_singleton
  · exact (List.Nodup.of_map _ hids).filter _
  · exact List.mem_filter.mpr ⟨hmem, by simp [huser, hact]⟩
  · intro x hx
    have hx' := List.mem_filter.mp hx
    have hxu : x.user_id = userId ∧ x.status = SessionStatus.active := by
      simpa using hx'.2
    exact hone x hx'.1 sess hmem (by rw [hxu.1, huser]) hxu.2 hact

/-- C3: starting a session for a user who already has an active session
fails with `AlreadyActive`, and the failed action inserts no row. -/
theorem startSession_already_active
    (store : Store) (userId staffId today now : Nat) (sess : UserSession)
    (hmem : sess ∈ store.sessions) (huser : sess.user_id = userId)
    (hact : sess.status = SessionStatus.active)
    (hids : SessionIdsUnique store) (hone : AtMostOneActivePerUser store) :
    startSession store userId staffId today now =
      Except.error StartError.AlreadyActive ∧
    applyOp (Op.startOp userId staffId today now) store = store := by
  have hq : activeSessionQuery store userId = [sess] :=
    activeSessionQuery_eq_singleton hmem huser hact hids hone
  have h1 : startSession store userId staffId today now =
      Except.error StartError.AlreadyActive := by
    unfold startSession
    rw [hq]
    rfl
  refine ⟨h1, ?_⟩
  simp only [applyOp, h1]
  rfl

/-- Closed instance of `startSession_already_active`: user 1 of
`demoStore61` already sits in an active session. -/
theorem startSession_already_active_witness :
    demoSession ∈ demoStore61.sessions ∧
    demoSession.user_id = 1 ∧
    demoSession.status = SessionStatus.active ∧
    SessionIdsUnique demoStore61 ∧
    AtMostOneActivePerUser demoStore61 ∧
    (startSession demoStore61 1 9 50 999 =
        Except.error StartError.AlreadyActive ∧
      applyOp (Op.startOp 1 9 50 999) demoStore61 = demoStore61) :=
  ⟨by decide, by decide, by decide, by decide, by decide,
    startSession_already_active demoStore61 1 9 50 999 demoSession (by decide)
      (by decide) (by decide) (by decide) (by decide)⟩

/-- When the user has no active session, the line-97 query is empty. -/
lemma activeSessionQuery_eq_nil {store : Store} {userId : Nat}
    (hnoactive : ∀ s ∈ store.sessions,
      ¬(s.user_id = userId ∧ s.status = SessionStatus.active)) :
    activeSessionQuery store userId = [] := by
  apply List.filter_eq_nil_iff.mpr
  intro s hs
  simpa using hnoactive s hs

/-- C4: for a user with no active session whose (unique) active,
date-valid subscription has `hours_remaining ≤ 0`, the start operation
fails with `InsufficientBalance` and inserts no row. -/
theorem startSession_insufficient_balance
    (store : Store) (userId staffId today now : Nat) (sub : UserSubscription)
    (hnoactive : ∀ s ∈ store.sessions,
      ¬(s.user_id = userId ∧ s.status = SessionStatus.active))
    (hsubq : subscriptionQuery store userId today = [sub])
    (hbal : sub.hours_remaining ≤ 0) :
    startSession store userId staffId today now =
      Except.error StartError.InsufficientBalance ∧
    applyOp (Op.startOp userId staffId today now) store = store := by
  have h1 : startSession store userId staffId today now =
      Except.error StartError.InsufficientBalance := by
    unfold startSession
    rw [activeSessionQuery_eq_nil hnoactive]
    dsimp only [singleRow]
    rw [hsubq]
    dsimp only [singleRow]
    rw [if_pos hbal]
  refine ⟨h1, ?_⟩
  simp only [applyOp, h1]
  rfl

/-- Closed instance of `startSession_insufficient_balance`: user 1 of
`demoStoreDrained` has a subscription with 0 hours remaining. -/
theorem startSession_insufficient_balance_witness :
    (∀ s ∈ demoStoreDrained.sessions,
      ¬(s.user_id = 1 ∧ s.status = SessionStatus.active)) ∧
    subscriptionQuery demoStoreDrained 1 50 = [demoSub0] ∧
    demoSub0.hours_remaining ≤ 0 ∧
    (startSession demoStoreDrained 1 9 50 999 =
        Except.error StartError.InsufficientBalance ∧
      applyOp (Op.startOp 1 9 50 999) demoStoreDrained = demoStoreDrained) :=
  ⟨by decide, by decide, by decide,
    startSession_insufficient_balance demoStoreDrained 1 9 50 999 demoSub0
      (by decide) (by decide) (by decide)⟩

/-- C7: for a user with no active session and no subscription that is
`active` with `end_date ≥ today`, the start operation fails with
`NoSubscription` and inserts no row. -/
theorem startSession_no_subscription
    (store : Store) (userId staffId today now : Nat)
    (hnoactive : ∀ s ∈ store.sessions,
      ¬(s.user_id = userId ∧ s.status = SessionStatus.active))
    (hnosub : ∀ sb ∈ store.subscriptions,
      ¬(sb.user_id = userId ∧ sb.status = SubscriptionStatus.active ∧
        today ≤ sb.end_date)) :
    startSession store userId staffId today now =
      Except.error StartError.NoSubscription ∧
    applyOp (Op.startOp userId staffId today now) store = store := by
  have hq : subscriptionQuery store userId today = [] := by
    apply List.filter_eq_nil_iff.mpr
    intro sb hsb
    simpa [and_assoc] using hnosub sb hsb
  have h1 : startSession store userId staffId today now =
      Except.error StartError.NoSubscription := by
    unfold startSession
    rw [activeSessionQuery_eq_nil hnoactive]
    dsimp only [singleRow]
    rw [hq]
  refine ⟨h1, ?_⟩
  simp only [applyOp, h1]
  rfl

/-- Closed instance of `startSession_no_subscription`: the empty store
has neither sessions nor subscriptions for user 1. -/
theorem startSession_no_subscription_witness :
    (∀ s ∈ demoStoreEmpty.sessions,
      ¬(s.user_id = 1 ∧ s.status = SessionStatus.active)) ∧
    (∀ sb ∈ demoStoreEmpty.subscriptions,
      ¬(sb.user_id = 1 ∧ sb.status = SubscriptionStatus.active ∧
        (50 : Nat) ≤ sb.end_date)) ∧
    (startSession demoStoreEmpty 1 9 50 999 =
        Except.error StartError.NoSubscription ∧
      applyOp (Op.startOp 1 9 50 999) demoStoreEmpty = demoStoreEmpty) :=
  ⟨by decide, by decide,
    startSession_no_subscription demoStoreEmpty 1 9 50 999 (by decide) (by decide)⟩

/-- Every session id is bounded by the running maximum. -/
lemma le_foldr_max (l : List UserSession) (s : UserSession) (h : s ∈ l) :
    s.id ≤ l.foldr (fun x m => max x.id m) 0 := by
  induction l with
  | nil => cases h
  | cons x xs ih =>
    rcases List.mem_cons.mp h with h | h
    · subst h; exact le_max_left _ _
    · exact le_trans (ih h) (le_max_right _ _)

/-- The freshly generated primary key clashes with no stored session. -/
lemma id_lt_freshId {store : Store} {s : UserSession} (h : s ∈ store.sessions) :
    s.id < freshId store :=
  Nat.lt_succ_of_le (le_foldr_max _ _ h)

/-- `startSession` either fails, or inserts exactly the one new row. -/
lemma startSession_cases (store : Store) (u staff today now : Nat) :
    (∃ e, startSession store u staff today now = Except.error e) ∨
    (∃ sub, startSession store u staff today now = Except.ok
      { store with sessions := mkNewSession store u staff now sub :: store.sessions }) := by
  unfold startSession
  cases singleRow (activeSessionQuery store u) with
  | some s => exact Or.inl ⟨_, rfl⟩
  | none =>
    dsimp only
    cases singleRow (subscriptionQuery store u today) with
    | none => exact Or.inl ⟨_, rfl⟩
    | some sub =>
      dsimp only
      by_cases hb : sub.hours_remaining ≤ 0
      · exact Or.inl ⟨_, by rw [if_pos hb]⟩
      · exact Or.inr ⟨sub, by rw [if_neg hb]⟩

/-- One start click moves the status seen at any id along `StatusStep`. -/
lemma statusStep_start (store : Store) (u staff today now i : Nat) :
    StatusStep (statusOf store i)
      (statusOf (applyOp (Op.startOp u staff today now) store) i) := by
  rcases startSession_cases store u staff today now with ⟨e, he⟩ | ⟨sub, hok⟩
  · left
    simp [applyOp, he, Except.toOption]
  · have happ : applyOp (Op.startOp u staff today now) store =
        { store with sessions := mkNewSession store u staff now sub :: store.sessions } := by
      simp [applyOp, hok, Except.toOption]
    rw [happ]
    by_cases hi : (mkNewSession store u staff now sub).id = i
    · have hfilter : store.sessions.filter (fun s => decide (s.id = i)) = [] := by
        apply List.filter_eq_nil_iff.mpr
        intro s hs
        have hlt := id_lt_freshId hs
        have : i = freshId store := by rw [← hi]; rfl
        simp only [decide_eq_true_eq]
        omega
      have hold : statusOf store i = none := by
        unfold statusOf findSessionRow
        rw [hfilter]
        rfl
      have hcons : (mkNewSession store u staff now sub :: store.sessions).filter
          (fun s => decide (s.id = i)) = [mkNewSession store u staff now sub] := by
        rw [List.filter_cons, if_pos (by simp [hi]), hfilter]
      have hnew : statusOf
          { store with sessions := mkNewSession store u staff now sub :: store.sessions } i =
          some SessionStatus.active := by
        unfold statusOf findSessionRow
        dsimp only
        rw [hcons]
        rfl
      exact Or.inr (Or.inl ⟨hold, hnew⟩)
    · left
      unfold statusOf findSessionRow
      simp only [List.filter_cons]
      rw [if_neg (by simpa using hi)]

/-- One end click moves the status seen at any id along `StatusStep`. -/
lemma statusStep_end (store : Store) (sid now staff : Nat) (w : Bool) (i : Nat) :
    StatusStep (statusOf store i)
      (statusOf (applyOp (Op.endOp sid now staff w) store) i) := by
  cases hres : (endSession store sid now staff w).1 with
  | error e =>
    left
    simp [applyOp, hres, Except.toOption]
  | ok store' =>
    have happ : applyOp (Op.endOp sid now staff w) store = store' := by
      simp [applyOp, hres, Except.toOption]
    rw [happ]
    obtain ⟨sess, hfind⟩ := endSession_ok_find hres
    obtain ⟨hsess, -⟩ := endSession_ok_state hfind hres
    have hmap : store'.sessions.filter (fun s => decide (s.id = i)) =
        (store.sessions.filter fun s => decide (s.id = i)).map
          (updateSessionRow sid now (durationMinutesOf sess.start_time now)
            (hoursDeductedOf (durationMinutesOf sess.start_time now)) staff) := by
      rw [hsess]
      exact filter_map_comm _ _ _ (fun s => by rw [updateSessionRow_id])
    have hstat : statusOf store' i =
        ((singleRow (store.sessions.filter fun s => decide (s.id = i))).map
          (updateSessionRow sid now (durationMinutesOf sess.start_time now)
            (hoursDeductedOf (durationMinutesOf sess.start_time now)) staff)).map
          (fun s => s.status) := by
      unfold statusOf findSessionRow
      rw [hmap, singleRow_map]
    cases hsr : singleRow (store.sessions.filter fun s => decide (s.id = i)) with
    | none =>
      left
      rw [hstat, hsr]
      unfold statusOf findSessionRow
      rw [hsr]
      rfl
    | some x =>
      have hbefore : statusOf store i = some x.status := by
        unfold statusOf findSessionRow
        rw [hsr]
        rfl
      rw [hstat, hsr, hbefore]
      by_cases hxs : x.id = sid
      · have hupd : (updateSessionRow sid now (durationMinutesOf sess.start_time now)
            (hoursDeductedOf (durationMinutesOf sess.start_time now)) staff x).status =
            SessionStatus.completed := by
          unfold updateSessionRow
          rw [if_pos hxs]
        cases hxst : x.status with
        | active =>
          exact Or.inr (Or.inr ⟨rfl, by simp [hupd]⟩)
        | completed =>
          left
          simp [hupd]
      · have hupd : updateSessionRow sid now (durationMinutesOf sess.start_time now)
            (hoursDeductedOf (durationMinutesOf sess.start_time now)) staff x = x := by
          unfold updateSessionRow
          rw [if_neg hxs]
        left
        simp [hupd]

/-- Any single staff action moves each status along `StatusStep`. -/
lemma statusStep_applyOp (op : Op) (store : Store) (i : Nat) :
    StatusStep (statusOf store i) (statusOf (applyOp op store) i) := by
  cases op with
  | startOp u staff today now => exact statusStep_start store u staff today now i
  | endOp sid now staff w => exact statusStep_end store sid now staff w i

/-- A single step followed by any evolution is still an evolution. -/
lemma statusStep_reach_trans {a b c : Option SessionStatus}
    (h1 : StatusStep a b) (h2 : StatusReach b c) : StatusReach a c := by
  rcases h1 with rfl | ⟨rfl, rfl⟩ | ⟨rfl, rfl⟩
  · exact h2
  · rcases h2 with rfl | ⟨h2a, -⟩ | ⟨-, rfl⟩
    · exact Or.inr (Or.inl ⟨rfl, Or.inl rfl⟩)
    · cases h2a
    · exact Or.inr (Or.inl ⟨rfl, Or.inr rfl⟩)
  · rcases h2 with rfl | ⟨h2a, -⟩ | ⟨h2a, -⟩
    · exact Or.inr (Or.inr ⟨rfl, rfl⟩)
    · cases h2a
    · cases h2a

/-- Any sequence of staff actions moves each status along `StatusReach`. -/
lemma statusReach_applyOps (ops : List Op) (store : Store) (i : Nat) :
    StatusReach (statusOf store i) (statusOf (applyOps ops store) i) := by
  induction ops generalizing store with
  | nil => exact Or.inl rfl
  | cons op ops ih =>
    have hstep := statusStep_applyOp op store i
    have hrest := ih (applyOp op store)
    have hfold : applyOps (op :: ops) store = applyOps ops (applyOp op store) := rfl
    rw [hfold]
    exact statusStep_reach_trans hstep hrest

/-- C8: over every sequence of start and end actions, sessions are
created with status `active`, and the only transition a stored status
ever undergoes is `active` to `completed` — a completed session never
leaves `completed` and no other state exists. -/
theorem session_status_machine :
    (∀ (op : Op) (store : Store) (i : Nat) (st : SessionStatus),
        statusOf store i = none → statusOf (applyOp op store) i = some st →
        st = SessionStatus.active) ∧
    (∀ (ops : List Op) (store : Store) (i : Nat) (st st' : SessionStatus),
        statusOf store i = some st → statusOf (applyOps ops store) i = some st' →
        st' = st ∨ (st = SessionStatus.active ∧ st' = SessionStatus.completed)) := by
  constructor
  · intro op store i st h0 h1
    have hstep := statusStep_applyOp op store i
    rcases hstep with h | ⟨-, h⟩ | ⟨ha, -⟩
    · rw [h0] at h
      rw [h] at h1
      cases h1
    · rw [h] at h1
      injection h1 with h1
      exact h1.symm
    · rw [h0] at ha
      cases ha
  · intro ops store i st st' h0 h1
    have hreach := statusReach_applyOps ops store i
    rw [h0, h1] at hreach
    rcases hreach with h | ⟨ha, -⟩ | ⟨ha, hb⟩
    · left
      injection h with h
    · cases ha
    · right
      injection ha with ha
      injection hb with hb
      exact ⟨ha, hb⟩

/-- Closed instance of `session_status_machine`: starting on a ready
store creates an `active` session, and ending it completes it. -/
theorem session_status_machine_witness :
    statusOf demoStoreReady 1 = none ∧
    statusOf (applyOp (Op.startOp 1 9 50 0) demoStoreReady) 1 =
      some SessionStatus.active ∧
    SessionStatus.active = SessionStatus.active ∧
    statusOf demoStore61 1 = some SessionStatus.active ∧
    statusOf (applyOps [Op.endOp 1 60000 9 true] demoStore61) 1 =
      some SessionStatus.completed ∧
    (SessionStatus.completed = SessionStatus.active ∨
      (SessionStatus.active = SessionStatus.active ∧
        SessionStatus.completed = SessionStatus.completed)) :=
  ⟨by decide, by decide,
    session_status_machine.1 (Op.startOp 1 9 50 0) demoStoreReady 1
      SessionStatus.active (by decide) (by decide),
    by decide, by decide,
    session_status_machine.2 [Op.endOp 1 60000 9 true] demoStore61 1
      SessionStatus.active SessionStatus.completed (by decide) (by decide)⟩

end SessionManagement
